import Mathlib

/-
  Verification of the SkSL function-declaration and overload-resolution
  subsystem (src/sksl/ir/SkSLFunctionDeclaration.cpp in the repository slice).

  The shallow embedding below translates the C++ functions of that file into
  Lean definitions.  The external `Type` capability (SkSLType.h is not part of
  the slice) is embedded as a table of type records indexed by `Nat` type ids:
  `Type::matches` is id equality (one id per resolved type), and coercion is a
  table-supplied boolean function, exactly the opaque capability the code
  consumes.  Modifier flag bits are embedded as named booleans; the layout
  `fBuiltin` slot is an `Int` (-1 meaning "no builtin role"), mirroring
  SkSLModifiers.h / SkSLLayout.h.
-/

namespace SkSLSpec

/-- Record of the per-type data the subsystem reads from the external type
system.  `isOpq` embeds `Type::isOpaque`, `componentOpq` embeds
`Type::componentType().isOpaque()`, `coercibleTypes` the ordered generic
family (`Type::coercibleTypes`), `tname` the `name()`/`displayName`, and
`abbreviatedName` the mangling abbreviation. -/
structure TypeInfo where
  tname : String
  abbreviatedName : String
  isArray : Bool
  isOrContainsArray : Bool
  isOpq : Bool
  componentOpq : Bool
  isEffectChild : Bool
  isTexture : Bool
  isStructTy : Bool
  isGenericTy : Bool
  coercibleTypes : List Nat
deriving DecidableEq

/-- The external type capability: per-id type records, the coercion test
`canCoerceTo(target, allowNarrowing)`, and the distinguished ids the checks
compare against (`fFloat2`, `fFloat4`, `fHalf4`, `fVoid`). -/
structure TypeTable where
  info : Nat → TypeInfo
  canCoerceTo : Nat → Nat → Bool → Bool
  float2Id : Nat
  float4Id : Nat
  half4Id : Nat
  voidId : Nat

/-- Modifier flags (SkSLModifiers.h bits, one boolean per bit) together with
the layout data the subsystem touches: `layoutFlags` is true when any
user-visible layout flag is set, `layoutBuiltin` is `fLayout.fBuiltin`. -/
structure Modifiers where
  constFlag : Bool
  inFlag : Bool
  outFlag : Bool
  sideEffects : Bool
  inlineFlag : Bool
  noInlineFlag : Bool
  es3 : Bool
  readOnlyFlag : Bool
  writeOnlyFlag : Bool
  layoutFlags : Bool
  layoutBuiltin : Int
deriving DecidableEq

/-- Modifiers with no flags set and no builtin role. -/
def noMods : Modifiers :=
  ⟨false, false, false, false, false, false, false, false, false, false, -1⟩

/-- A function parameter: its type id and its modifiers (SkSLVariable slice
used by this subsystem). -/
structure Param where
  typeId : Nat
  modifiers : Modifiers
deriving DecidableEq

/-- ProgramKind enumeration (SkSLProgramKind.h). -/
inductive ProgramKind where
  | runtimeColorFilter
  | runtimeShader
  | privateRuntimeShader
  | runtimeBlender
  | meshVertex
  | meshFragment
  | generic
  | fragment
  | graphiteFragment
  | vertex
  | graphiteVertex
  | compute
deriving DecidableEq

/-- Modelled from the spec: `ProgramConfig::IsRuntimeEffect` (the class lives
outside the slice).  The runtime-effect kinds are the color filter, the two
shader flavors, the blender, and the two mesh kinds. -/
def isRuntimeEffect : ProgramKind → Bool
  | .runtimeColorFilter | .runtimeShader | .privateRuntimeShader
  | .runtimeBlender | .meshVertex | .meshFragment => true
  | _ => false

/-- Modelled from the spec: `ProgramConfig::IsFragment`. -/
def isFragmentKind : ProgramKind → Bool
  | .fragment | .graphiteFragment => true
  | _ => false

/-- Compilation configuration consulted by the checks: builtin-code flag,
strict-ES2 mode, and the active program kind. -/
structure ProgramConfig where
  isBuiltinCode : Bool
  strictES2 : Bool
  kind : ProgramKind
deriving DecidableEq

/-- The builtin slot id for the coordinate role (SK_MAIN_COORDS_BUILTIN). -/
def skMainCoordsBuiltin : Int := 10009

/-- The builtin slot id for the source-color role (SK_INPUT_COLOR_BUILTIN). -/
def skInputColorBuiltin : Int := 10010

/-- The builtin slot id for the dest-color role (SK_DEST_COLOR_BUILTIN). -/
def skDestColorBuiltin : Int := 10011

/-- The validated symbol record (FunctionDeclaration).  `hasDefinition`
embeds `definition() != nullptr`. -/
structure FunctionDeclaration where
  name : String
  parameters : List Param
  returnTypeId : Nat
  modifiers : Modifiers
  builtin : Bool
  hasDefinition : Bool
deriving DecidableEq

/-- FunctionDeclaration::isMain (`fIsMain`, set from `name == "main"`). -/
def FunctionDeclaration.isMain (d : FunctionDeclaration) : Bool :=
  d.name == "main"

/-- A symbol-table entry: either the head of an overload chain of function
declarations (`nextOverload` links flattened into a list in declaration
order), or some non-function symbol. -/
inductive Symbol where
  | func (chain : List FunctionDeclaration)
  | nonFunction
deriving DecidableEq

/-- The symbol table: name-indexed entries plus the parameter records the
table has taken ownership of (`takeOwnershipOfSymbol`). -/
structure SymbolTable where
  entries : List (String × Symbol)
  ownedParams : List Param
deriving DecidableEq

/-- Name lookup (`symbols[name]`), first matching entry. -/
def SymbolTable.lookupSym (s : SymbolTable) (name : String) : Option Symbol :=
  (s.entries.find? (fun e => e.1 == name)).map (fun e => e.2)

/-- The overload chain recorded for `name` (empty when the name is absent or
bound to a non-function symbol). -/
def SymbolTable.funcChain (s : SymbolTable) (name : String) : List FunctionDeclaration :=
  match s.lookupSym name with
  | some (Symbol.func chain) => chain
  | _ => []

/-- Replace (or append) the entry for a name. -/
def replaceEntry : List (String × Symbol) → String → Symbol → List (String × Symbol)
  | [], n, v => [(n, v)]
  | e :: rest, n, v => if e.1 == n then (n, v) :: rest else e :: replaceEntry rest n v

/-- Modelled from the spec: `SymbolTable::add` for a function declaration
appends the new declaration to the overload chain of its name (spec 4.4 step 7);
a fresh name gets a one-element chain. -/
def SymbolTable.addDecl (s : SymbolTable) (d : FunctionDeclaration) : SymbolTable :=
  match s.lookupSym d.name with
  | some (Symbol.func chain) =>
      { s with entries := replaceEntry s.entries d.name (Symbol.func (chain ++ [d])) }
  | _ => { s with entries := s.entries ++ [(d.name, Symbol.func [d])] }

/-- Scan loop of find_generic_index: first index (counting from `idx`) in the
family list whose entry the concrete type can coerce to. -/
def findGenericLoop (tt : TypeTable) (concrete : Nat) (allowNarrowing : Bool) :
    List Nat → Nat → Int
  | [], _ => -1
  | t :: rest, idx =>
      if tt.canCoerceTo concrete t allowNarrowing then (idx : Int)
      else findGenericLoop tt concrete allowNarrowing rest (idx + 1)

/-- find_generic_index: index of `concrete` within the typelist of the generic type, or -1 if there is no match. -/
def find_generic_index (tt : TypeTable) (concrete generic : Nat) (allowNarrowing : Bool) : Int :=
  findGenericLoop tt concrete allowNarrowing (tt.info generic).coercibleTypes 0

/-- type_generically_matches: true if the types match, or if `concrete` can
be found in the typelist of `maybeGeneric` (no narrowing). -/
def type_generically_matches (tt : TypeTable) (concrete maybeGeneric : Nat) : Bool :=
  if (tt.info maybeGeneric).isGenericTy then
    find_generic_index tt concrete maybeGeneric false != -1
  else concrete == maybeGeneric

/-- First loop of parameters_match: determine a consistent generic index over
the zipped (candidate type, declared type) pairs, or fail on a missing or
contradictory resolution. -/
def computeGenericIndex (tt : TypeTable) : List (Nat × Nat) → Int → Option Int
  | [], gi => some gi
  | (p, o) :: rest, gi =>
      if (tt.info o).isGenericTy then
        let g := find_generic_index tt p o false
        if g = -1 then none
        else if gi ≠ -1 ∧ gi ≠ g then none
        else computeGenericIndex tt rest g
      else computeGenericIndex tt rest gi

/-- Second loop of parameters_match: make declared generic types concrete at
the determined index and compare each pair. -/
def checkConcreteMatch (tt : TypeTable) : List (Nat × Nat) → Int → Bool
  | [], _ => true
  | (p, o) :: rest, gi =>
      let oc := if (tt.info o).isGenericTy
                then (tt.info o).coercibleTypes.getD gi.toNat 0
                else o
      p == oc && checkConcreteMatch tt rest gi

/-- parameters_match: checks a candidate parameter list against the
parameters of a previously declared function (which may contain generics). -/
def parameters_match (tt : TypeTable) (params otherParams : List Param) : Bool :=
  if params.length ≠ otherParams.length then false
  else
    let pairs := (params.map Param.typeId).zip (otherParams.map Param.typeId)
    match computeGenericIndex tt pairs (-1) with
    | none => false
    | some gi => checkConcreteMatch tt pairs gi

/-- Modelled from the spec: `Modifiers::checkPermitted` (SkSLModifiers.cpp is
outside the slice).  It reports (without mutating) an error when a set flag is
not in the permitted set, or when any layout flag is set (both calls in this
file pass permittedLayoutFlags = 0); here the report is collapsed to a single
error count since only zero-versus-nonzero is observable. -/
def checkPermittedOk (m allowed : Modifiers) : Bool :=
  (!m.constFlag || allowed.constFlag) && (!m.inFlag || allowed.inFlag) &&
  (!m.outFlag || allowed.outFlag) && (!m.sideEffects || allowed.sideEffects) &&
  (!m.inlineFlag || allowed.inlineFlag) && (!m.noInlineFlag || allowed.noInlineFlag) &&
  (!m.es3 || allowed.es3) && (!m.readOnlyFlag || allowed.readOnlyFlag) &&
  (!m.writeOnlyFlag || allowed.writeOnlyFlag) && !m.layoutFlags

/-- Error count produced by the permitted-flags check. -/
def checkPermittedErrs (m allowed : Modifiers) : Nat :=
  if checkPermittedOk m allowed then 0 else 1

/-- The flags permitted on a function by check_modifiers: has-side-effects,
inline, noinline, plus ES3 for builtin code. -/
def functionAllowed (cfg : ProgramConfig) : Modifiers :=
  ⟨false, false, false, true, true, true, cfg.isBuiltinCode, false, false, false, -1⟩

/-- The flags permitted on a parameter by check_parameters: const and in,
out unless the type is opaque, read-only and write-only for textures. -/
def paramAllowed (tt : TypeTable) (t : Nat) : Modifiers :=
  ⟨true, true, !(tt.info t).isOpq, false, false, false, false,
   (tt.info t).isTexture, (tt.info t).isTexture, false, -1⟩

/-- check_modifiers: permitted-flag check plus the inline/noinline conflict.
Returns the error count and the boolean result the C++ function returns
(false only for the inline+noinline conflict). -/
def check_modifiers (cfg : ProgramConfig) (m : Modifiers) : Nat × Bool :=
  let errs := checkPermittedErrs m (functionAllowed cfg)
  if m.inlineFlag && m.noInlineFlag then (errs + 1, false) else (errs, true)

/-- check_return_type: no array returns, no struct-containing-array returns
in strict ES2 mode, no opaque-component returns outside builtin code. -/
def check_return_type (tt : TypeTable) (cfg : ProgramConfig) (returnType : Nat) : Bool :=
  if (tt.info returnType).isArray then false
  else if cfg.strictES2 && (tt.info returnType).isOrContainsArray then false
  else if !cfg.isBuiltinCode && (tt.info returnType).componentOpq then false
  else true

/-- The `type.matches(half4) || type.matches(float4)` color test used in
check_parameters and check_main_signature. -/
def typeIsValidForColor (tt : TypeTable) (t : Nat) : Bool :=
  t == tt.half4Id || t == tt.float4Id

/-- The implicit-`in` normalization of check_parameters: a parameter with
`in` set and `out` clear has both bits cleared. -/
def stripIn (m : Modifiers) : Modifiers :=
  if m.inFlag && !m.outFlag then { m with inFlag := false, outFlag := false } else m

/-- The role inference of check_parameters on a main parameter: under a
runtime-effect (non-mesh) kind a float2 is tagged as the coords and the first
two color-typed parameters as input and dest color; under a fragment kind a
float2 is tagged as the coords.  Returns the new modifiers and the advanced
builtin-color index. -/
def inferRole (tt : TypeTable) (cfg : ProgramConfig) (isMain : Bool) (t : Nat)
    (m : Modifiers) (ci : Nat) : Modifiers × Nat :=
  if isMain then
    if isRuntimeEffect cfg.kind && !(cfg.kind == ProgramKind.meshFragment)
        && !(cfg.kind == ProgramKind.meshVertex) then
      if t == tt.float2Id then ({ m with layoutBuiltin := skMainCoordsBuiltin }, ci)
      else if typeIsValidForColor tt t && ci < 2 then
        ({ m with layoutBuiltin := if ci == 0 then skInputColorBuiltin else skDestColorBuiltin },
         ci + 1)
      else (m, ci)
    else if isFragmentKind cfg.kind then
      if t == tt.float2Id then ({ m with layoutBuiltin := skMainCoordsBuiltin }, ci)
      else (m, ci)
    else (m, ci)
  else (m, ci)

/-- The full per-parameter modifier rewrite of check_parameters: strip the
redundant `in`, then infer the main() role. -/
def processParamMods (tt : TypeTable) (cfg : ProgramConfig) (isMain : Bool) (t : Nat)
    (m : Modifiers) (ci : Nat) : Modifiers × Nat :=
  inferRole tt cfg isMain t (stripIn m) ci

/-- check_parameters: per-parameter permitted-modifier check, the
effect-child restriction (hard failure outside builtin code), implicit-`in`
stripping and main() role inference.  Returns (error count, parameter list
with the rewrites applied, overall boolean result); on the effect-child
failure the remaining parameters are returned unprocessed, as in the C++
early return. -/
def check_parameters (tt : TypeTable) (cfg : ProgramConfig) (isMain : Bool) :
    List Param → Nat → Nat × List Param × Bool
  | [], _ => (0, [], true)
  | p :: rest, ci =>
      let errs := checkPermittedErrs p.modifiers (paramAllowed tt p.typeId)
      if (tt.info p.typeId).isEffectChild && !cfg.isBuiltinCode then
        (errs + 1, p :: rest, false)
      else
        let mc := processParamMods tt cfg isMain p.typeId p.modifiers ci
        let r := check_parameters tt cfg isMain rest mc.2
        (errs + r.1, { p with modifiers := mc.1 } :: r.2.1, r.2.2)

/-- The shape errors check_main_signature can report, one constructor per
`errors.error` call site. -/
inductive MainSigError where
  | badColorReturn
  | colorFilterParams
  | shaderParams
  | blenderParams
  | meshVertexReturn
  | meshVertexParams
  | meshFragmentReturn
  | meshFragmentParams
  | fragmentParams
  | voidReturn
  | zeroParams
deriving DecidableEq

/-- All nine modifier flag bits clear (`modifiers().fFlags == 0`). -/
def Modifiers.flagsZero (m : Modifiers) : Bool :=
  !m.constFlag && !m.inFlag && !m.outFlag && !m.sideEffects && !m.inlineFlag &&
  !m.noInlineFlag && !m.es3 && !m.readOnlyFlag && !m.writeOnlyFlag

/-- Only the `out` flag set. -/
def Modifiers.flagsOnlyOut (m : Modifiers) : Bool :=
  !m.constFlag && !m.inFlag && m.outFlag && !m.sideEffects && !m.inlineFlag &&
  !m.noInlineFlag && !m.es3 && !m.readOnlyFlag && !m.writeOnlyFlag

/-- paramIsCoords: a float2 parameter with no flags and the coords role. -/
def paramIsCoords (tt : TypeTable) (p : Param) : Bool :=
  p.typeId == tt.float2Id && p.modifiers.flagsZero
    && p.modifiers.layoutBuiltin == skMainCoordsBuiltin

/-- paramIsBuiltinColor: a color-typed parameter with no flags and the given
builtin role. -/
def paramIsBuiltinColor (tt : TypeTable) (p : Param) (builtinID : Int) : Bool :=
  typeIsValidForColor tt p.typeId && p.modifiers.flagsZero
    && p.modifiers.layoutBuiltin == builtinID

/-- paramIsInAttributes: an unmodified struct named Attributes. -/
def paramIsInAttributes (tt : TypeTable) (p : Param) : Bool :=
  ((tt.info p.typeId).isStructTy && (tt.info p.typeId).tname == "Attributes")
    && p.modifiers.flagsZero

/-- paramIsOutVaryings: a struct named Varyings carrying exactly `out`. -/
def paramIsOutVaryings (tt : TypeTable) (p : Param) : Bool :=
  ((tt.info p.typeId).isStructTy && (tt.info p.typeId).tname == "Varyings")
    && p.modifiers.flagsOnlyOut

/-- paramIsInVaryings: an unmodified struct named Varyings. -/
def paramIsInVaryings (tt : TypeTable) (p : Param) : Bool :=
  ((tt.info p.typeId).isStructTy && (tt.info p.typeId).tname == "Varyings")
    && p.modifiers.flagsZero

/-- paramIsOutColor: a color-typed parameter carrying exactly `out`. -/
def paramIsOutColor (tt : TypeTable) (p : Param) : Bool :=
  typeIsValidForColor tt p.typeId && p.modifiers.flagsOnlyOut

/-- check_main_signature: the per-ProgramKind shape rules for main().
Returns `none` on success, or the error of the first failing check. -/
def check_main_signature (tt : TypeTable) (cfg : ProgramConfig) (returnType : Nat)
    (parameters : List Param) : Option MainSigError :=
  match cfg.kind with
  | ProgramKind.runtimeColorFilter =>
      if !typeIsValidForColor tt returnType then some MainSigError.badColorReturn
      else match parameters with
        | [p0] => if paramIsBuiltinColor tt p0 skInputColorBuiltin then none
                  else some MainSigError.colorFilterParams
        | _ => some MainSigError.colorFilterParams
  | ProgramKind.runtimeShader | ProgramKind.privateRuntimeShader =>
      if !typeIsValidForColor tt returnType then some MainSigError.badColorReturn
      else match parameters with
        | [p0] => if paramIsCoords tt p0 then none else some MainSigError.shaderParams
        | [p0, p1] =>
            if paramIsCoords tt p0 && paramIsBuiltinColor tt p1 skInputColorBuiltin then none
            else some MainSigError.shaderParams
        | _ => some MainSigError.shaderParams
  | ProgramKind.runtimeBlender =>
      if !typeIsValidForColor tt returnType then some MainSigError.badColorReturn
      else match parameters with
        | [p0, p1] =>
            if paramIsBuiltinColor tt p0 skInputColorBuiltin
                && paramIsBuiltinColor tt p1 skDestColorBuiltin then none
            else some MainSigError.blenderParams
        | _ => some MainSigError.blenderParams
  | ProgramKind.meshVertex =>
      if !(returnType == tt.float2Id) then some MainSigError.meshVertexReturn
      else match parameters with
        | [p0, p1] =>
            if paramIsInAttributes tt p0 && paramIsOutVaryings tt p1 then none
            else some MainSigError.meshVertexParams
        | _ => some MainSigError.meshVertexParams
  | ProgramKind.meshFragment =>
      if !(returnType == tt.float2Id) && !(returnType == tt.voidId) then
        some MainSigError.meshFragmentReturn
      else match parameters with
        | [p0] => if paramIsInVaryings tt p0 then none else some MainSigError.meshFragmentParams
        | [p0, p1] =>
            if paramIsInVaryings tt p0 && paramIsOutColor tt p1 then none
            else some MainSigError.meshFragmentParams
        | _ => some MainSigError.meshFragmentParams
  | ProgramKind.generic => none
  | ProgramKind.fragment | ProgramKind.graphiteFragment =>
      (match parameters with
        | [] => none
        | [p0] => if paramIsCoords tt p0 then none else some MainSigError.fragmentParams
        | _ => some MainSigError.fragmentParams)
  | ProgramKind.vertex | ProgramKind.graphiteVertex | ProgramKind.compute =>
      if !(returnType == tt.voidId) then some MainSigError.voidReturn
      else if parameters.length ≠ 0 then some MainSigError.zeroParams
      else none

/-- The error categories Convert and find_existing_declaration can report,
one constructor per distinct failure path. -/
inductive ConvertError where
  | modifierViolation
  | returnTypeViolation
  | parameterViolation
  | mainSignatureError
  | symbolAlreadyDefined
  | differOnlyInReturnType
  | modifiersDiffer
  | duplicateDefinition
deriving DecidableEq

/-- True when some positional pair of parameter modifiers differs between
the candidate and the existing declaration. -/
def modifiersMismatch (ps qs : List Param) : Bool :=
  (ps.zip qs).any (fun pq => !(pq.1.modifiers == pq.2.modifiers))

/-- The overload-chain walk of find_existing_declaration: skip declarations
whose parameters do not match; at a parameter match, reject a differing
return type, differing positional modifiers, or a re-declaration of a
defined-or-builtin function, and otherwise link to the found declaration. -/
def walkChain (tt : TypeTable) (params : List Param) (returnType : Nat) :
    List FunctionDeclaration → Except ConvertError (Option FunctionDeclaration)
  | [] => Except.ok none
  | other :: rest =>
      if !parameters_match tt params other.parameters then
        walkChain tt params returnType rest
      else if !type_generically_matches tt returnType other.returnTypeId then
        Except.error ConvertError.differOnlyInReturnType
      else if modifiersMismatch params other.parameters then
        Except.error ConvertError.modifiersDiffer
      else if other.hasDefinition || other.builtin then
        Except.error ConvertError.duplicateDefinition
      else Except.ok (some other)

/-- find_existing_declaration: reject a same-named non-function symbol, then
walk the overload chain; `ok none` means the candidate is genuinely new. -/
def find_existing_declaration (tt : TypeTable) (s : SymbolTable) (name : String)
    (params : List Param) (returnType : Nat) :
    Except ConvertError (Option FunctionDeclaration) :=
  match s.lookupSym name with
  | none => Except.ok none
  | some Symbol.nonFunction => Except.error ConvertError.symbolAlreadyDefined
  | some (Symbol.func chain) => walkChain tt params returnType chain

/-- The outcome of FunctionDeclaration::Convert: the resulting declaration
and symbol table, or an error and the (untouched) symbol table. -/
inductive ConvertResult where
  | ok (decl : FunctionDeclaration) (symbols : SymbolTable)
  | err (e : ConvertError) (symbols : SymbolTable)
deriving DecidableEq

/-- The symbol table carried by a Convert outcome. -/
def ConvertResult.symbols : ConvertResult → SymbolTable
  | ConvertResult.ok _ s => s
  | ConvertResult.err _ s => s

/-- Tail of Convert after all checks pass: consult the symbol table, transfer
the parameters into it, and either return the existing declaration or
register a brand-new one on the overload chain. -/
def convertFinish (tt : TypeTable) (cfg : ProgramConfig) (s : SymbolTable)
    (modifiers : Modifiers) (name : String) (params : List Param)
    (returnType : Nat) : ConvertResult :=
  match find_existing_declaration tt s name params returnType with
  | Except.error e => ConvertResult.err e s
  | Except.ok declOpt =>
      let s1 : SymbolTable := { s with ownedParams := s.ownedParams ++ params }
      match declOpt with
      | some d => ConvertResult.ok d s1
      | none =>
          let newDecl : FunctionDeclaration :=
            ⟨name, params, returnType, modifiers, cfg.isBuiltinCode, false⟩
          ConvertResult.ok newDecl (s1.addDecl newDecl)

/-- FunctionDeclaration::Convert: run the validator checks in order, the
main-signature check for the entry point, then overload resolution; any
failing check returns an error with the symbol table untouched. -/
def Convert (tt : TypeTable) (cfg : ProgramConfig) (s : SymbolTable)
    (modifiers : Modifiers) (name : String) (parameters : List Param)
    (returnType : Nat) : ConvertResult :=
  if !(check_modifiers cfg modifiers).2 then
    ConvertResult.err ConvertError.modifierViolation s
  else if !check_return_type tt cfg returnType then
    ConvertResult.err ConvertError.returnTypeViolation s
  else if !(check_parameters tt cfg (name == "main") parameters 0).2.2 then
    ConvertResult.err ConvertError.parameterViolation s
  else if (name == "main") && (check_main_signature tt cfg returnType
      (check_parameters tt cfg (name == "main") parameters 0).2.1).isSome then
    ConvertResult.err ConvertError.mainSignatureError s
  else convertFinish tt cfg s modifiers name
    (check_parameters tt cfg (name == "main") parameters 0).2.1 returnType

/-- The candidate parameter list as it is compared by the overload
resolution in Convert: the output of check_parameters. -/
def normalizedParams (tt : TypeTable) (cfg : ProgramConfig) (name : String)
    (parameters : List Param) : List Param :=
  (check_parameters tt cfg (name == "main") parameters 0).2.1

/-- FunctionDeclaration::mangledName: builtins without a definition and
main() keep their real name; otherwise the `$` marker is stripped (noted by
the `Q` mangle character), a splitter avoiding a double underscore is
appended, then the abbreviated return type and parameter types. -/
def mangledName (tt : TypeTable) (d : FunctionDeclaration) : String :=
  if (d.builtin && !d.hasDefinition) || d.isMain then d.name
  else
    let stripped := d.name.startsWith "$"
    let nm := if stripped then d.name.drop 1 else d.name
    let builtinMarker := if stripped then "Q" else ""
    let splitter := if nm.endsWith "_" then "x_" else "_"
    let base := nm ++ splitter ++ builtinMarker ++ (tt.info d.returnTypeId).abbreviatedName
    d.parameters.foldl (fun acc p => acc ++ (tt.info p.typeId).abbreviatedName) base

/-- The loop of determineFinalTypes over (argument type, parameter type)
pairs: the first generic parameter locks the generic index (narrowing
allowed); failure to resolve it fails the whole call.  Returns the final
parameter types and the locked index. -/
def dftLoop (tt : TypeTable) : List (Nat × Nat) → Int → Option (List Nat × Int)
  | [], gi => some ([], gi)
  | (arg, pt) :: rest, gi =>
      if (tt.info pt).isGenericTy then
        let gi1 := if gi = -1 then find_generic_index tt arg pt true else gi
        if gi1 = -1 then none
        else (dftLoop tt rest gi1).map
          (fun r => ((tt.info pt).coercibleTypes.getD gi1.toNat 0 :: r.1, r.2))
      else (dftLoop tt rest gi).map (fun r => (pt :: r.1, r.2))

/-- FunctionDeclaration::determineFinalTypes: resolve every generic
parameter type at the locked index, then resolve a generic return type at
that index (failing when no parameter fixed one). -/
def determineFinalTypes (tt : TypeTable) (d : FunctionDeclaration)
    (argTypes : List Nat) : Option (List Nat × Nat) :=
  match dftLoop tt (argTypes.zip (d.parameters.map Param.typeId)) (-1) with
  | none => none
  | some r =>
      if (tt.info d.returnTypeId).isGenericTy then
        if r.2 = -1 then none
        else some (r.1, (tt.info d.returnTypeId).coercibleTypes.getD r.2.toNat 0)
      else some (r.1, d.returnTypeId)

/-- Helper to build a plain concrete (non-generic, non-opaque) type record. -/
def mkConcrete (n a : String) : TypeInfo :=
  ⟨n, a, false, false, false, false, false, false, false, false, []⟩

/-- Helper to build a bounded-generic type record with its ordered family. -/
def mkGeneric (n : String) (fam : List Nat) : TypeInfo :=
  ⟨n, "G", false, false, false, false, false, false, false, true, fam⟩

/-- Helper to build a struct type record. -/
def mkStructTy (n : String) : TypeInfo :=
  ⟨n, "S", false, false, false, false, false, false, true, false, []⟩

/-- Helper to build an effect-child (opaque nested-effect handle) record. -/
def mkEffectChild (n : String) : TypeInfo :=
  ⟨n, "E", false, false, true, true, true, false, false, false, []⟩

/-- Modelled from the spec: the concrete slice of the external type system
(SkSLType.h / SkSLBuiltinTypes.h are outside the slice) used by the witnesses.
Ids 0..10 are the basic concrete types with their mangling abbreviations,
11/12 the generic families `$genType`/`$genHType`, 13/14 the mesh structs,
15 a shader effect-child handle, and 16 the spec scenario family
`[float2, float3, float4]`. -/
def skTypeList : List TypeInfo :=
  [mkConcrete "void" "v", mkConcrete "float" "f", mkConcrete "float2" "f2",
   mkConcrete "float3" "f3", mkConcrete "float4" "f4", mkConcrete "half" "h",
   mkConcrete "half2" "h2", mkConcrete "half3" "h3", mkConcrete "half4" "h4",
   mkConcrete "int" "i", mkConcrete "bool" "b",
   mkGeneric "$genType" [1, 2, 3, 4], mkGeneric "$genHType" [5, 6, 7, 8],
   mkStructTy "Attributes", mkStructTy "Varyings",
   mkEffectChild "shader", mkGeneric "$vec234" [2, 3, 4]]

/-- Modelled from the spec: the widening half-k to float-k coercions of the
sample universe. -/
def skWidens (a b : Nat) : Bool :=
  (a == 5 && b == 1) || (a == 6 && b == 2) || (a == 7 && b == 3) || (a == 8 && b == 4)

/-- Modelled from the spec: `Type::canCoerceTo` on the sample universe —
exact match, widening, and (only with narrowing allowed) the narrowing
direction. -/
def skCoerce (a b : Nat) (allowNarrowing : Bool) : Bool :=
  a == b || skWidens a b || (allowNarrowing && skWidens b a)

/-- The sample type table: float2 is id 2, float4 id 4, half4 id 8, void 0. -/
def skTypes : TypeTable :=
  ⟨fun n => skTypeList.getD n (mkConcrete "void" "v"), skCoerce, 2, 4, 8, 0⟩

/-- The scan loop returns -1 exactly when no family entry accepts the
concrete type. -/
theorem findGenericLoop_eq_neg_one (tt : TypeTable) (c : Nat) (n : Bool) :
    ∀ (l : List Nat) (idx : Nat),
      (findGenericLoop tt c n l idx = -1 ↔ ∀ t ∈ l, tt.canCoerceTo c t n = false) := by
  intro l
  induction l with
  | nil => intro idx; simp [findGenericLoop]
  | cons t rest ih =>
      intro idx
      by_cases hc : tt.canCoerceTo c t n
      · simp [findGenericLoop, hc]
      · simp only [findGenericLoop, hc, if_false, Bool.false_eq_true]
        rw [ih (idx + 1)]
        constructor
        · intro h u hu
          rcases List.mem_cons.mp hu with h1 | h1
          · subst h1; exact Bool.eq_false_iff.mpr hc
          · exact h u h1
        · intro h u hu
          exact h u (List.mem_cons_of_mem _ hu)

/-- The scan loop returns `idx + k` when position `k` is the first accepting
family entry. -/
theorem findGenericLoop_first (tt : TypeTable) (c : Nat) (n : Bool) :
    ∀ (l : List Nat) (idx k : Nat) (hk : k < l.length),
      tt.canCoerceTo c (l.get ⟨k, hk⟩) n = true →
      (∀ j : Nat, ∀ hj : j < l.length, j < k → tt.canCoerceTo c (l.get ⟨j, hj⟩) n = false) →
      findGenericLoop tt c n l idx = ((idx + k : Nat) : Int) := by
  intro l
  induction l with
  | nil => intro idx k hk; simp at hk
  | cons t rest ih =>
      intro idx k hk hcoerce hbefore
      cases k with
      | zero =>
          simp only [List.get] at hcoerce
          simp [findGenericLoop, hcoerce]
      | succ k0 =>
          have ht : tt.canCoerceTo c t n = false := by
            have := hbefore 0 (by simp) (Nat.succ_pos k0)
            simpa [List.get] using this
          simp only [findGenericLoop, ht, Bool.false_eq_true, if_false]
          have hk0 : k0 < rest.length := Nat.lt_of_succ_lt_succ hk
          have hrec := ih (idx + 1) k0 hk0 (by simpa [List.get] using hcoerce)
            (fun j hj hjk => by
              have := hbefore (j + 1) (Nat.succ_lt_succ hj) (Nat.succ_lt_succ hjk)
              simpa [List.get] using this)
          rw [hrec]
          congr 1
          omega

/-- Claim C3: find_generic_index performs a first-match linear scan of the
generic family — it returns -1 exactly when no candidate accepts the
concrete type (under the requested narrowing mode), and whenever position
`k` is the earliest candidate the concrete type can coerce to, the returned
index is `k`; in particular an argument coercible to several candidates
resolves to the earliest one. -/
theorem find_generic_index_first_match (tt : TypeTable) (c g : Nat) (n : Bool) :
    (find_generic_index tt c g n = -1 ↔
      ∀ t ∈ (tt.info g).coercibleTypes, tt.canCoerceTo c t n = false) ∧
    (∀ k : Nat, ∀ hk : k < (tt.info g).coercibleTypes.length,
      tt.canCoerceTo c ((tt.info g).coercibleTypes.get ⟨k, hk⟩) n = true →
      (∀ j : Nat, ∀ hj : j < (tt.info g).coercibleTypes.length,
        j < k → tt.canCoerceTo c ((tt.info g).coercibleTypes.get ⟨j, hj⟩) n = false) →
      find_generic_index tt c g n = (k : Int)) := by
  constructor
  · exact findGenericLoop_eq_neg_one tt c n (tt.info g).coercibleTypes 0
  · intro k hk hc hb
    have := findGenericLoop_first tt c n (tt.info g).coercibleTypes 0 k hk hc hb
    simpa [find_generic_index] using this

/-- Witness for C3: with the family `[float2, float3, float4]` (ids 2, 3, 4)
and a float3 argument, the resolved index is 1, the earliest match. -/
theorem find_generic_index_first_match_witness :
    find_generic_index skTypes 3 16 false = (1 : Int) :=
  (find_generic_index_first_match skTypes 3 16 false).2 1 (by decide) (by decide)
    (by decide)

/-- Inversion of the consistency loop at a generic head pair. -/
theorem computeGenericIndex_cons_generic (tt : TypeTable) (p o : Nat)
    (rest : List (Nat × Nat)) (gi r : Int) (hg : (tt.info o).isGenericTy = true)
    (h : computeGenericIndex tt ((p, o) :: rest) gi = some r) :
    find_generic_index tt p o false ≠ -1 ∧
    (gi = -1 ∨ gi = find_generic_index tt p o false) ∧
    computeGenericIndex tt rest (find_generic_index tt p o false) = some r := by
  simp only [computeGenericIndex, hg, if_true] at h
  by_cases h1 : find_generic_index tt p o false = -1
  · rw [if_pos h1] at h
    exact absurd h (by simp)
  · rw [if_neg h1] at h
    by_cases h2 : gi ≠ -1 ∧ gi ≠ find_generic_index tt p o false
    · rw [if_pos h2] at h
      exact absurd h (by simp)
    · rw [if_neg h2] at h
      refine ⟨h1, ?_, h⟩
      by_cases hgi : gi = -1
      · exact Or.inl hgi
      · right
        by_contra hne
        exact h2 ⟨hgi, hne⟩

/-- The consistency loop skips a non-generic head pair. -/
theorem computeGenericIndex_cons_nonGeneric (tt : TypeTable) (p o : Nat)
    (rest : List (Nat × Nat)) (gi : Int) (hg : (tt.info o).isGenericTy = false) :
    computeGenericIndex tt ((p, o) :: rest) gi = computeGenericIndex tt rest gi := by
  simp [computeGenericIndex, hg]

/-- Once the generic index is fixed (not -1), the consistency loop can only
succeed with that same index. -/
theorem computeGenericIndex_stable (tt : TypeTable) :
    ∀ (pairs : List (Nat × Nat)) (gi r : Int),
      computeGenericIndex tt pairs gi = some r → gi ≠ -1 → r = gi := by
  intro pairs
  induction pairs with
  | nil => intro gi r h _; simpa [computeGenericIndex] using h.symm
  | cons po rest ih =>
      intro gi r h hgi
      obtain ⟨p, o⟩ := po
      by_cases hg : (tt.info o).isGenericTy
      · obtain ⟨h1, hor, hrec⟩ := computeGenericIndex_cons_generic tt p o rest gi r hg h
        have hgeq : gi = find_generic_index tt p o false := by
          rcases hor with h0 | h0
          · exact absurd h0 hgi
          · exact h0
        rw [ih (find_generic_index tt p o false) r hrec h1, hgeq]
      · rw [computeGenericIndex_cons_nonGeneric tt p o rest gi
          (Bool.eq_false_iff.mpr hg)] at h
        exact ih gi r h hgi

/-- Every generic position processed by a successful consistency loop
resolves to the final index of the loop. -/
theorem computeGenericIndex_all (tt : TypeTable) :
    ∀ (pairs : List (Nat × Nat)) (gi r : Int),
      computeGenericIndex tt pairs gi = some r →
      ∀ po ∈ pairs, (tt.info po.2).isGenericTy = true →
        find_generic_index tt po.1 po.2 false = r := by
  intro pairs
  induction pairs with
  | nil => intro gi r _ po hpo; simp at hpo
  | cons q rest ih =>
      intro gi r h po hpo hgen
      obtain ⟨p, o⟩ := q
      rcases List.mem_cons.mp hpo with hpo1 | hpo1
      · have hg : (tt.info o).isGenericTy = true := by
          rw [hpo1] at hgen
          exact hgen
        obtain ⟨h1, _, hrec⟩ := computeGenericIndex_cons_generic tt p o rest gi r hg h
        rw [hpo1]
        exact (computeGenericIndex_stable tt rest _ r hrec h1).symm
      · by_cases hg : (tt.info o).isGenericTy
        · obtain ⟨h1, _, hrec⟩ := computeGenericIndex_cons_generic tt p o rest gi r hg h
          exact ih _ r hrec po hpo1 hgen
        · rw [computeGenericIndex_cons_nonGeneric tt p o rest gi
            (Bool.eq_false_iff.mpr hg)] at h
          exact ih gi r h po hpo1 hgen

/-- Claim C2: parameter lists of different lengths never match, and when two
generic positions of the previously declared parameter list resolve the
candidate types (no narrowing) to different family indices, the whole
match is excluded: parameters_match returns false (no error value is even
representable in its result). -/
theorem parameters_match_generic_consistency (tt : TypeTable) (ps os : List Param) :
    (ps.length ≠ os.length → parameters_match tt ps os = false) ∧
    (∀ i j : Nat, ∀ hi : i < os.length, ∀ hj : j < os.length,
      ∀ hip : i < ps.length, ∀ hjp : j < ps.length,
      (tt.info os[i].typeId).isGenericTy = true →
      (tt.info os[j].typeId).isGenericTy = true →
      find_generic_index tt ps[i].typeId os[i].typeId false ≠
        find_generic_index tt ps[j].typeId os[j].typeId false →
      parameters_match tt ps os = false) := by
  constructor
  · intro hlen
    simp [parameters_match, hlen]
  · intro i j hi hj hip hjp hgi hgj hne
    cases hpm : parameters_match tt ps os with
    | false => rfl
    | true =>
        exfalso
        simp only [parameters_match] at hpm
        by_cases hlen : ps.length ≠ os.length
        · rw [if_pos hlen] at hpm
          exact absurd hpm (by simp)
        · rw [if_neg hlen] at hpm
          cases hcgi : computeGenericIndex tt
              ((ps.map Param.typeId).zip (os.map Param.typeId)) (-1) with
          | none =>
              rw [hcgi] at hpm
              exact absurd hpm (by simp)
          | some gi =>
              have hzi : i < ((ps.map Param.typeId).zip (os.map Param.typeId)).length := by
                rw [List.length_zip]
                simp only [List.length_map]
                omega
              have hzj : j < ((ps.map Param.typeId).zip (os.map Param.typeId)).length := by
                rw [List.length_zip]
                simp only [List.length_map]
                omega
              have hgeti : ((ps.map Param.typeId).zip (os.map Param.typeId))[i] =
                  (ps[i].typeId, os[i].typeId) := by
                rw [List.getElem_zip]
                simp
              have hgetj : ((ps.map Param.typeId).zip (os.map Param.typeId))[j] =
                  (ps[j].typeId, os[j].typeId) := by
                rw [List.getElem_zip]
                simp
              have hmemi : ((ps.map Param.typeId).zip (os.map Param.typeId))[i] ∈
                  (ps.map Param.typeId).zip (os.map Param.typeId) := List.getElem_mem hzi
              have hmemj : ((ps.map Param.typeId).zip (os.map Param.typeId))[j] ∈
                  (ps.map Param.typeId).zip (os.map Param.typeId) := List.getElem_mem hzj
              have hri := computeGenericIndex_all tt _ (-1) gi hcgi _ hmemi
                (by rw [hgeti]; exact hgi)
              have hrj := computeGenericIndex_all tt _ (-1) gi hcgi _ hmemj
                (by rw [hgetj]; exact hgj)
              rw [hgeti] at hri
              rw [hgetj] at hrj
              exact hne (hri.trans hrj.symm)

/-- Witness for C2: a declaration with two `$vec234` generic parameters does
not match the candidate list (float3, float2): the first generic resolves to
index 1, the second to index 0. -/
theorem parameters_match_generic_consistency_witness :
    parameters_match skTypes [⟨3, noMods⟩, ⟨2, noMods⟩] [⟨16, noMods⟩, ⟨16, noMods⟩] = false :=
  (parameters_match_generic_consistency skTypes [⟨3, noMods⟩, ⟨2, noMods⟩]
      [⟨16, noMods⟩, ⟨16, noMods⟩]).2 0 1 (by decide) (by decide) (by decide) (by decide)
    (by decide) (by decide) (by decide)

/-- The chain walk skips every leading declaration whose parameters do not
match the candidate. -/
theorem walkChain_skip (tt : TypeTable) (params : List Param) (returnType : Nat) :
    ∀ (pre rest : List FunctionDeclaration),
      (∀ x ∈ pre, parameters_match tt params x.parameters = false) →
      walkChain tt params returnType (pre ++ rest) = walkChain tt params returnType rest := by
  intro pre
  induction pre with
  | nil => intro rest _; rfl
  | cons d pre0 ih =>
      intro rest hpre
      have hd : parameters_match tt params d.parameters = false :=
        hpre d (List.mem_cons_self d pre0)
      simp only [List.cons_append, walkChain, hd]
      simp only [Bool.not_false, if_true]
      exact ih rest (fun x hx => hpre x (List.mem_cons_of_mem d hx))

/-- When the chain walk reports no existing declaration, no chain element
has parameters matching the candidate. -/
theorem walkChain_none (tt : TypeTable) (params : List Param) (returnType : Nat) :
    ∀ (chain : List FunctionDeclaration),
      walkChain tt params returnType chain = Except.ok none →
      ∀ d ∈ chain, parameters_match tt params d.parameters = false := by
  intro chain
  induction chain with
  | nil => intro _ d hd; simp at hd
  | cons other rest ih =>
      intro h d hd
      by_cases hpm : parameters_match tt params other.parameters = true
      · exfalso
        simp only [walkChain, hpm, Bool.not_true, Bool.false_eq_true, if_false] at h
        by_cases hrt : type_generically_matches tt returnType other.returnTypeId
        · simp only [hrt, Bool.not_true, Bool.false_eq_true, if_false] at h
          by_cases hmm : modifiersMismatch params other.parameters = true
          · simp [hmm] at h
          · simp only [Bool.eq_false_iff.mpr hmm, Bool.false_eq_true, if_false] at h
            by_cases hdup : (other.hasDefinition || other.builtin) = true
            · simp [hdup] at h
            · simp only [Bool.eq_false_iff.mpr (fun hc => hdup hc), Bool.false_eq_true,
                if_false] at h
              exact absurd h (by simp)
        · simp [Bool.eq_false_iff.mpr hrt] at h
      · have hpm0 : parameters_match tt params other.parameters = false :=
          Bool.eq_false_iff.mpr hpm
        rcases List.mem_cons.mp hd with hd1 | hd1
        · rw [hd1]
          exact hpm0
        · simp only [walkChain, hpm0, Bool.not_false, if_true] at h
          exact ih h d hd1

/-- Claim C4: return-type-only overloading is rejected — when the scan of
the overload chain reaches the first declaration whose parameter list
matches the candidate (under the generic-consistent match) and that
return type of that declaration does not generically match that of the candidate,
find_existing_declaration fails with the differ-only-in-return-type error;
this includes an existing declaration with a generic return type, since the
comparison goes through type_generically_matches. -/
theorem return_type_only_overload_rejected (tt : TypeTable) (s : SymbolTable)
    (name : String) (params : List Param) (returnType : Nat)
    (pre rest : List FunctionDeclaration) (other : FunctionDeclaration)
    (hlook : s.lookupSym name = some (Symbol.func (pre ++ other :: rest)))
    (hpre : ∀ x ∈ pre, parameters_match tt params x.parameters = false)
    (hpm : parameters_match tt params other.parameters = true)
    (hrt : type_generically_matches tt returnType other.returnTypeId = false) :
    find_existing_declaration tt s name params returnType =
      Except.error ConvertError.differOnlyInReturnType := by
  rw [find_existing_declaration, hlook]
  show walkChain tt params returnType (pre ++ other :: rest) =
    Except.error ConvertError.differOnlyInReturnType
  rw [walkChain_skip tt params returnType pre (other :: rest) hpre]
  simp [walkChain, hpm, hrt]

/-- Witness for C4: the chain holds `$vec234 foo(float3)` (generic return,
family ids [2, 3, 4]); the candidate `int foo(float3)` matches its parameter
list but its return type resolves nowhere in the family, so resolution fails
with the differ-only-in-return-type error. -/
theorem return_type_only_overload_rejected_witness :
    find_existing_declaration skTypes
      ⟨[("foo", Symbol.func [⟨"foo", [⟨3, noMods⟩], 16, noMods, true, false⟩])], []⟩
      "foo" [⟨3, noMods⟩] 9 = Except.error ConvertError.differOnlyInReturnType :=
  return_type_only_overload_rejected skTypes
    ⟨[("foo", Symbol.func [⟨"foo", [⟨3, noMods⟩], 16, noMods, true, false⟩])], []⟩
    "foo" [⟨3, noMods⟩] 9 [] [] ⟨"foo", [⟨3, noMods⟩], 16, noMods, true, false⟩
    (by decide) (by intro x hx; simp at hx) (by decide) (by decide)

/-- Claim C5: duplicate-definition handling — when the scan reaches the
first parameter-matching declaration and the return types generically match
and every positional parameter-modifier pair agrees, resolution fails with
the duplicate-definition error exactly when the existing declaration already
has a body attached or is a builtin; otherwise the existing declaration is
returned as the canonical record. -/
theorem duplicate_definition_condition (tt : TypeTable) (s : SymbolTable)
    (name : String) (params : List Param) (returnType : Nat)
    (pre rest : List FunctionDeclaration) (other : FunctionDeclaration)
    (hlook : s.lookupSym name = some (Symbol.func (pre ++ other :: rest)))
    (hpre : ∀ x ∈ pre, parameters_match tt params x.parameters = false)
    (hpm : parameters_match tt params other.parameters = true)
    (hrt : type_generically_matches tt returnType other.returnTypeId = true)
    (hmods : modifiersMismatch params other.parameters = false) :
    (find_existing_declaration tt s name params returnType =
        Except.error ConvertError.duplicateDefinition ↔
      (other.hasDefinition || other.builtin) = true) ∧
    ((other.hasDefinition || other.builtin) = false →
      find_existing_declaration tt s name params returnType = Except.ok (some other)) := by
  have hbase : find_existing_declaration tt s name params returnType =
      walkChain tt params returnType (other :: rest) := by
    rw [find_existing_declaration, hlook]
    show walkChain tt params returnType (pre ++ other :: rest) =
      walkChain tt params returnType (other :: rest)
    exact walkChain_skip tt params returnType pre (other :: rest) hpre
  constructor
  · constructor
    · intro h
      by_cases hdup : (other.hasDefinition || other.builtin) = true
      · exact hdup
      · exfalso
        rw [hbase] at h
        simp [walkChain, hpm, hrt, hmods, Bool.eq_false_iff.mpr hdup] at h
    · intro hdup
      rw [hbase]
      simp [walkChain, hpm, hrt, hmods, hdup]
  · intro hdup
    rw [hbase]
    simp [walkChain, hpm, hrt, hmods, hdup]

/-- Witness for C5: re-declaring `float foo(float3)` when the chain already
holds the same signature with a body attached fails with the
duplicate-definition error. -/
theorem duplicate_definition_condition_witness :
    find_existing_declaration skTypes
      ⟨[("foo", Symbol.func [⟨"foo", [⟨3, noMods⟩], 1, noMods, false, true⟩])], []⟩
      "foo" [⟨3, noMods⟩] 1 = Except.error ConvertError.duplicateDefinition :=
  (duplicate_definition_condition skTypes
      ⟨[("foo", Symbol.func [⟨"foo", [⟨3, noMods⟩], 1, noMods, false, true⟩])], []⟩
      "foo" [⟨3, noMods⟩] 1 [] [] ⟨"foo", [⟨3, noMods⟩], 1, noMods, false, true⟩
      (by decide) (by intro x hx; simp at hx) (by decide) (by decide) (by decide)).1.mpr
    (by decide)

/-- Claim C1: uniqueness of recorded signatures — whenever the chain already
holds a same-named declaration whose parameter list matches the normalized
candidate parameters (generic-consistently) and whose return type
generically matches that of the candidate, Convert never appends a second record:
the overload chain after Convert is exactly the chain before (the candidate
is either rejected with an error or linked to the existing record). -/
theorem convert_never_duplicates_signature (tt : TypeTable) (cfg : ProgramConfig)
    (s : SymbolTable) (m : Modifiers) (name : String) (ps : List Param) (ret : Nat)
    (other : FunctionDeclaration)
    (hmem : other ∈ s.funcChain name)
    (hpm : parameters_match tt (normalizedParams tt cfg name ps) other.parameters = true)
    (hrt : type_generically_matches tt ret other.returnTypeId = true) :
    (Convert tt cfg s m name ps ret).symbols.funcChain name = s.funcChain name := by
  rw [Convert]
  split_ifs with h1 h2 h3 h4
  · rfl
  · rfl
  · rfl
  · rfl
  · rw [convertFinish]
    cases hfe : find_existing_declaration tt s name
        (check_parameters tt cfg (name == "main") ps 0).2.1 ret with
    | error e => rfl
    | ok declOpt =>
        cases declOpt with
        | some d => rfl
        | none =>
            exfalso
            rw [find_existing_declaration] at hfe
            cases hchain : s.lookupSym name with
            | none =>
                have : s.funcChain name = [] := by
                  rw [SymbolTable.funcChain, hchain]
                rw [this] at hmem
                simp at hmem
            | some sym =>
                cases sym with
                | nonFunction =>
                    rw [hchain] at hfe
                    exact absurd hfe (by simp)
                | func chain =>
                    rw [hchain] at hfe
                    have hmem2 : other ∈ chain := by
                      have : s.funcChain name = chain := by
                        rw [SymbolTable.funcChain, hchain]
                      rw [this] at hmem
                      exact hmem
                    have := walkChain_none tt
                      (check_parameters tt cfg (name == "main") ps 0).2.1 ret chain hfe
                      other hmem2
                    rw [normalizedParams] at hpm
                    rw [this] at hpm
                    exact absurd hpm (by simp)

/-- Witness for C1: linking a re-declaration of `float foo(float3)` (no body,
not builtin) to the recorded declaration leaves the overload chain for `foo`
unchanged. -/
theorem convert_never_duplicates_signature_witness :
    (Convert skTypes ⟨false, false, ProgramKind.fragment⟩
        ⟨[("foo", Symbol.func [⟨"foo", [⟨3, noMods⟩], 1, noMods, false, false⟩])], []⟩
        noMods "foo" [⟨3, noMods⟩] 1).symbols.funcChain "foo" =
      SymbolTable.funcChain
        ⟨[("foo", Symbol.func [⟨"foo", [⟨3, noMods⟩], 1, noMods, false, false⟩])], []⟩
        "foo" :=
  convert_never_duplicates_signature skTypes ⟨false, false, ProgramKind.fragment⟩
    ⟨[("foo", Symbol.func [⟨"foo", [⟨3, noMods⟩], 1, noMods, false, false⟩])], []⟩
    noMods "foo" [⟨3, noMods⟩] 1 ⟨"foo", [⟨3, noMods⟩], 1, noMods, false, false⟩
    (by decide) (by decide) (by decide)

/-- Claim C9: rejection is atomic — whenever Convert returns an error, the
symbol table it hands back is exactly the input table: no declaration was
registered and no candidate parameter was transferred into the ownership
of the table. -/
theorem convert_rejection_atomic (tt : TypeTable) (cfg : ProgramConfig)
    (s : SymbolTable) (m : Modifiers) (name : String) (ps : List Param) (ret : Nat)
    (e : ConvertError) (s2 : SymbolTable)
    (h : Convert tt cfg s m name ps ret = ConvertResult.err e s2) : s2 = s := by
  rw [Convert] at h
  split_ifs at h with h1 h2 h3 h4
  · cases h
    rfl
  · cases h
    rfl
  · cases h
    rfl
  · cases h
    rfl
  · rw [convertFinish] at h
    cases hfe : find_existing_declaration tt s name
        (check_parameters tt cfg (name == "main") ps 0).2.1 ret with
    | error e0 =>
        rw [hfe] at h
        cases h
        rfl
    | ok declOpt =>
        rw [hfe] at h
        cases declOpt with
        | some d => exact absurd h (by simp)
        | none => exact absurd h (by simp)

/-- Witness for C9: a declaration rejected for carrying both inline and
noinline leaves the (empty) symbol table untouched. -/
theorem convert_rejection_atomic_witness :
    (⟨[], []⟩ : SymbolTable) = (⟨[], []⟩ : SymbolTable) :=
  convert_rejection_atomic skTypes ⟨false, false, ProgramKind.fragment⟩ ⟨[], []⟩
    ⟨false, false, false, false, true, true, false, false, false, false, -1⟩
    "foo" [] 1 ConvertError.modifierViolation ⟨[], []⟩ (by decide)

/-- The determineFinalTypes loop passes over non-generic parameter pairs,
keeping its index and prepending the parameter types. -/
theorem dftLoop_nonGeneric_append (tt : TypeTable) :
    ∀ (l1 l2 : List (Nat × Nat)) (gi : Int),
      (∀ x ∈ l1, (tt.info x.2).isGenericTy = false) →
      dftLoop tt (l1 ++ l2) gi =
        (dftLoop tt l2 gi).map (fun r => (l1.map Prod.snd ++ r.1, r.2)) := by
  intro l1
  induction l1 with
  | nil =>
      intro l2 gi _
      cases h : dftLoop tt l2 gi <;> simp [h]
  | cons x l0 ih =>
      intro l2 gi hng
      obtain ⟨arg, pt⟩ := x
      have hx : (tt.info pt).isGenericTy = false :=
        hng (arg, pt) (List.mem_cons_self _ _)
      have hrec := ih l2 gi (fun y hy => hng y (List.mem_cons_of_mem _ hy))
      simp only [List.cons_append, dftLoop, hx, Bool.false_eq_true, if_false,
        List.append_eq, hrec]
      cases h : dftLoop tt l2 gi <;> simp [h]

/-- Once the generic index is locked (not -1), the determineFinalTypes loop
always succeeds and keeps that index. -/
theorem dftLoop_locked (tt : TypeTable) :
    ∀ (l : List (Nat × Nat)) (gi : Int), gi ≠ -1 →
      ∃ outs, dftLoop tt l gi = some (outs, gi) := by
  intro l
  induction l with
  | nil => intro gi _; exact ⟨[], rfl⟩
  | cons x l0 ih =>
      intro gi hgi
      obtain ⟨arg, pt⟩ := x
      obtain ⟨outs, hout⟩ := ih gi hgi
      by_cases hg : (tt.info pt).isGenericTy
      · exact ⟨(tt.info pt).coercibleTypes.getD gi.toNat 0 :: outs,
          by simp [dftLoop, hg, hgi, hout]⟩
      · exact ⟨pt :: outs, by simp [dftLoop, hg, hout]⟩

/-- Claim C10: a declaration whose return type is generic but none of whose
parameter types are generic can never be resolved — determineFinalTypes
returns none for every argument list; and when the parameter list does
contain a generic (at its first generic position), a generic return type is
resolved to the family candidate at exactly the index fixed by that first
generic parameter. -/
theorem determine_final_types_generic_return (tt : TypeTable) (d : FunctionDeclaration) :
    ((tt.info d.returnTypeId).isGenericTy = true →
      (∀ t ∈ d.parameters.map Param.typeId, (tt.info t).isGenericTy = false) →
      ∀ argTypes : List Nat, determineFinalTypes tt d argTypes = none) ∧
    (∀ (args0 : List Nat) (argG : Nat) (argsR : List Nat)
        (nonGen : List Nat) (ptG : Nat) (restP : List Nat) (g : Int),
      d.parameters.map Param.typeId = nonGen ++ ptG :: restP →
      (∀ t ∈ nonGen, (tt.info t).isGenericTy = false) →
      (tt.info ptG).isGenericTy = true →
      args0.length = nonGen.length →
      find_generic_index tt argG ptG true = g → g ≠ -1 →
      (tt.info d.returnTypeId).isGenericTy = true →
      ∃ outs, determineFinalTypes tt d (args0 ++ argG :: argsR) =
        some (outs, (tt.info d.returnTypeId).coercibleTypes.getD g.toNat 0)) := by
  constructor
  · intro hret hng argTypes
    have hzng : ∀ x ∈ argTypes.zip (d.parameters.map Param.typeId),
        (tt.info x.2).isGenericTy = false := by
      intro x hx
      exact hng x.2 (List.of_mem_zip hx).2
    have hloop : dftLoop tt (argTypes.zip (d.parameters.map Param.typeId)) (-1) =
        some ((argTypes.zip (d.parameters.map Param.typeId)).map Prod.snd, -1) := by
      have := dftLoop_nonGeneric_append tt
        (argTypes.zip (d.parameters.map Param.typeId)) [] (-1) hzng
      simpa [dftLoop] using this
    rw [determineFinalTypes, hloop]
    simp [hret]
  · intro args0 argG argsR nonGen ptG restP g hsplit hng hgen hlen hfind hgne hret
    have hzip : (args0 ++ argG :: argsR).zip (d.parameters.map Param.typeId) =
        args0.zip nonGen ++ (argG, ptG) :: argsR.zip restP := by
      rw [hsplit]
      rw [List.zip_append hlen]
      simp
    have hzng : ∀ x ∈ args0.zip nonGen, (tt.info x.2).isGenericTy = false := by
      intro x hx
      exact hng x.2 (List.of_mem_zip hx).2
    obtain ⟨outs0, hout0⟩ := dftLoop_locked tt (argsR.zip restP) g hgne
    have hhead : dftLoop tt ((argG, ptG) :: argsR.zip restP) (-1) =
        some ((tt.info ptG).coercibleTypes.getD g.toNat 0 :: outs0, g) := by
      simp only [dftLoop, hgen, if_true, if_pos rfl, hfind]
      rw [if_neg hgne]
      simp [hout0]
    have hloop : dftLoop tt ((args0 ++ argG :: argsR).zip
        (d.parameters.map Param.typeId)) (-1) =
        some ((args0.zip nonGen).map Prod.snd ++
          ((tt.info ptG).coercibleTypes.getD g.toNat 0 :: outs0), g) := by
      rw [hzip, dftLoop_nonGeneric_append tt (args0.zip nonGen) _ (-1) hzng, hhead]
      rfl
    refine ⟨(args0.zip nonGen).map Prod.snd ++
      ((tt.info ptG).coercibleTypes.getD g.toNat 0 :: outs0), ?_⟩
    rw [determineFinalTypes, hloop]
    simp [hret, hgne]

/-- Witness for C10: for `$vec234 f($vec234)` (family ids [2, 3, 4]) called
with a float3 argument, the locked index is 1 and the generic return
resolves to float3 (id 3). -/
theorem determine_final_types_generic_return_witness :
    ∃ outs, determineFinalTypes skTypes ⟨"f", [⟨16, noMods⟩], 16, noMods, true, false⟩
      ([] ++ 3 :: []) = some (outs, (skTypes.info 16).coercibleTypes.getD (1 : Int).toNat 0) :=
  (determine_final_types_generic_return skTypes
      ⟨"f", [⟨16, noMods⟩], 16, noMods, true, false⟩).2
    [] 3 [] [] 16 [] 1 (by decide) (by intro t ht; simp at ht) (by decide) (by decide)
    (by decide) (by decide) (by decide)

/-- The three possible outcomes of the role-inference step for one
parameter. -/
inductive RoleOutcome where
  | nothing
  | coords
  | color
deriving DecidableEq

/-- Which role-inference branch fires for a parameter; it depends only on
the entry-point flag, the program kind, the parameter type, and the
builtin-color index — never on the current modifier value. -/
def roleBranch (tt : TypeTable) (cfg : ProgramConfig) (isMain : Bool) (t : Nat)
    (ci : Nat) : RoleOutcome :=
  if isMain then
    if isRuntimeEffect cfg.kind && !(cfg.kind == ProgramKind.meshFragment)
        && !(cfg.kind == ProgramKind.meshVertex) then
      if t == tt.float2Id then RoleOutcome.coords
      else if typeIsValidForColor tt t && ci < 2 then RoleOutcome.color
      else RoleOutcome.nothing
    else if isFragmentKind cfg.kind then
      if t == tt.float2Id then RoleOutcome.coords else RoleOutcome.nothing
    else RoleOutcome.nothing
  else RoleOutcome.nothing

/-- inferRole rewritten through its branch selector. -/
theorem inferRole_eq_branch (tt : TypeTable) (cfg : ProgramConfig) (isMain : Bool)
    (t : Nat) (m : Modifiers) (ci : Nat) :
    inferRole tt cfg isMain t m ci =
      match roleBranch tt cfg isMain t ci with
      | RoleOutcome.nothing => (m, ci)
      | RoleOutcome.coords => ({ m with layoutBuiltin := skMainCoordsBuiltin }, ci)
      | RoleOutcome.color =>
          ({ m with layoutBuiltin :=
              if ci == 0 then skInputColorBuiltin else skDestColorBuiltin }, ci + 1) := by
  rw [inferRole, roleBranch]
  split_ifs <;> rfl

/-- The color branch only fires while the two-slot table has room. -/
theorem roleBranch_color_lt (tt : TypeTable) (cfg : ProgramConfig) (isMain : Bool)
    (t : Nat) (ci : Nat) (h : roleBranch tt cfg isMain t ci = RoleOutcome.color) :
    ci < 2 := by
  rw [roleBranch] at h
  split_ifs at h with h1 h2 h3 h4 h5 h6 <;>
    first
      | (simp at h4; exact h4.2)
      | exact absurd h (by simp)

/-- stripIn never touches the layout builtin slot. -/
theorem stripIn_layoutBuiltin (m : Modifiers) :
    (stripIn m).layoutBuiltin = m.layoutBuiltin := by
  rw [stripIn]
  split_ifs <;> rfl

/-- Number of parameters currently tagged with one of the two color roles. -/
def colorCount (ps : List Param) : Nat :=
  ps.countP (fun p => p.modifiers.layoutBuiltin == skInputColorBuiltin ||
    p.modifiers.layoutBuiltin == skDestColorBuiltin)

/-- check_parameters assigns at most `2 - ci` new color roles: the fixed
two-slot table bounds the inferred source/destination tags. -/
theorem check_parameters_colorCount (tt : TypeTable) (cfg : ProgramConfig)
    (isMain : Bool) :
    ∀ (ps : List Param) (ci : Nat),
      colorCount (check_parameters tt cfg isMain ps ci).2.1 ≤ colorCount ps + (2 - ci) := by
  intro ps
  induction ps with
  | nil => intro ci; simp [check_parameters, colorCount]
  | cons p rest ih =>
      intro ci
      by_cases heff : ((tt.info p.typeId).isEffectChild && !cfg.isBuiltinCode) = true
      · simp only [check_parameters, heff, if_true]
        exact Nat.le_add_right _ _
      · simp only [check_parameters, heff, Bool.false_eq_true, if_false]
        rw [processParamMods, inferRole_eq_branch]
        cases hB : roleBranch tt cfg isMain p.typeId ci with
        | nothing =>
            have hlb : (stripIn p.modifiers).layoutBuiltin = p.modifiers.layoutBuiltin :=
              stripIn_layoutBuiltin p.modifiers
            have ihci := ih ci
            simp only [colorCount, List.countP_cons] at ihci ⊢
            simp only [hlb]
            by_cases hp : (p.modifiers.layoutBuiltin == skInputColorBuiltin ||
                p.modifiers.layoutBuiltin == skDestColorBuiltin) = true
            · simp only [hp, if_pos rfl]
              omega
            · simp only [if_neg hp]
              omega
        | coords =>
            have ihci := ih ci
            simp only [colorCount, List.countP_cons] at ihci ⊢
            have hnc : ¬ ((skMainCoordsBuiltin == skInputColorBuiltin ||
                skMainCoordsBuiltin == skDestColorBuiltin) = true) := by decide
            rw [if_neg hnc]
            by_cases hp : (p.modifiers.layoutBuiltin == skInputColorBuiltin ||
                p.modifiers.layoutBuiltin == skDestColorBuiltin) = true
            · rw [if_pos hp]
              omega
            · rw [if_neg hp]
              omega
        | color =>
            have hci : ci < 2 := roleBranch_color_lt tt cfg isMain p.typeId ci hB
            have ihci := ih (ci + 1)
            simp only [colorCount, List.countP_cons] at ihci ⊢
            have hone : (((if ci == 0 then skInputColorBuiltin else skDestColorBuiltin) ==
                skInputColorBuiltin) ||
                ((if ci == 0 then skInputColorBuiltin else skDestColorBuiltin) ==
                skDestColorBuiltin)) = true := by
              by_cases h0 : (ci == 0) = true
              · simp [h0]
              · simp [h0]
            rw [if_pos hone]
            by_cases hp : (p.modifiers.layoutBuiltin == skInputColorBuiltin ||
                p.modifiers.layoutBuiltin == skDestColorBuiltin) = true
            · rw [if_pos hp]
              omega
            · rw [if_neg hp]
              omega

/-- Claim C7: under the Blender kind, `half4 main(half4, half4)` passes the
parameter checks with the two color parameters tagged in argument order as
source color then destination color, and the main-signature shape check
accepts it (Convert registers it); `half4 main(half4)` is rejected by the
shape check with the blender-parameters error; and role inference can tag at
most two parameters with color roles (the fixed two-slot table). -/
theorem blender_main_shape :
    ((check_parameters skTypes ⟨false, false, ProgramKind.runtimeBlender⟩ true
        [⟨8, noMods⟩, ⟨8, noMods⟩] 0).2.2 = true ∧
      ((check_parameters skTypes ⟨false, false, ProgramKind.runtimeBlender⟩ true
        [⟨8, noMods⟩, ⟨8, noMods⟩] 0).2.1.map
          (fun p => p.modifiers.layoutBuiltin)) =
        [skInputColorBuiltin, skDestColorBuiltin] ∧
      check_main_signature skTypes ⟨false, false, ProgramKind.runtimeBlender⟩ 8
        (check_parameters skTypes ⟨false, false, ProgramKind.runtimeBlender⟩ true
          [⟨8, noMods⟩, ⟨8, noMods⟩] 0).2.1 = none ∧
      (match Convert skTypes ⟨false, false, ProgramKind.runtimeBlender⟩ ⟨[], []⟩ noMods
          "main" [⟨8, noMods⟩, ⟨8, noMods⟩] 8 with
        | ConvertResult.ok _ _ => true
        | ConvertResult.err _ _ => false) = true) ∧
    (check_main_signature skTypes ⟨false, false, ProgramKind.runtimeBlender⟩ 8
        (check_parameters skTypes ⟨false, false, ProgramKind.runtimeBlender⟩ true
          [⟨8, noMods⟩] 0).2.1 = some MainSigError.blenderParams ∧
      Convert skTypes ⟨false, false, ProgramKind.runtimeBlender⟩ ⟨[], []⟩ noMods
        "main" [⟨8, noMods⟩] 8 =
          ConvertResult.err ConvertError.mainSignatureError ⟨[], []⟩) ∧
    (∀ (ps : List Param) (ci : Nat),
      colorCount (check_parameters skTypes ⟨false, false, ProgramKind.runtimeBlender⟩
        true ps ci).2.1 ≤ colorCount ps + (2 - ci)) := by
  refine ⟨⟨by decide, by decide, by decide, by decide⟩, ⟨by decide, by decide⟩, ?_⟩
  exact check_parameters_colorCount skTypes ⟨false, false, ProgramKind.runtimeBlender⟩ true

/-- stripIn is idempotent: a parameter whose redundant `in` was stripped is
left untouched by a second strip. -/
theorem stripIn_idem (m : Modifiers) : stripIn (stripIn m) = stripIn m := by
  by_cases hc : (m.inFlag && !m.outFlag) = true
  · have h1 : stripIn m = { m with inFlag := false, outFlag := false } := by
      rw [stripIn, if_pos hc]
    rw [h1]
    rw [stripIn, if_neg]
    simp
  · have h1 : stripIn m = m := by
      rw [stripIn, if_neg hc]
    rw [h1, h1]

/-- stripIn leaves a stripped-then-role-tagged modifier value untouched. -/
theorem stripIn_update_lb (m : Modifiers) (x : Int) :
    stripIn { stripIn m with layoutBuiltin := x } = { stripIn m with layoutBuiltin := x } := by
  by_cases hc : (m.inFlag && !m.outFlag) = true
  · have h1 : stripIn m = { m with inFlag := false, outFlag := false } := by
      rw [stripIn, if_pos hc]
    rw [h1]
    rw [stripIn, if_neg]
    simp
  · have h1 : stripIn m = m := by
      rw [stripIn, if_neg hc]
    rw [h1]
    rw [stripIn, if_neg]
    simpa using hc

/-- The whole per-parameter modifier rewrite is idempotent. -/
theorem processParamMods_idem (tt : TypeTable) (cfg : ProgramConfig) (isMain : Bool)
    (t : Nat) (m : Modifiers) (ci : Nat) :
    processParamMods tt cfg isMain t (processParamMods tt cfg isMain t m ci).1 ci =
      processParamMods tt cfg isMain t m ci := by
  rw [processParamMods, processParamMods, inferRole_eq_branch, inferRole_eq_branch]
  cases hB : roleBranch tt cfg isMain t ci with
  | nothing => rw [stripIn_idem]
  | coords => rw [stripIn_update_lb]
  | color => rw [stripIn_update_lb]

/-- The layout builtin slot is not consulted by the permitted-flags check. -/
theorem checkPermittedOk_update_lb (m allowed : Modifiers) (x : Int) :
    checkPermittedOk { m with layoutBuiltin := x } allowed = checkPermittedOk m allowed := rfl

/-- Stripping the redundant `in` cannot introduce a permitted-flags error. -/
theorem checkPermittedOk_stripIn (m allowed : Modifiers)
    (h : checkPermittedOk m allowed = true) :
    checkPermittedOk (stripIn m) allowed = true := by
  by_cases hc : (m.inFlag && !m.outFlag) = true
  · have h1 : stripIn m = { m with inFlag := false, outFlag := false } := by
      rw [stripIn, if_pos hc]
    rw [h1]
    rw [checkPermittedOk] at h ⊢
    repeat rw [Bool.and_eq_true] at h
    obtain ⟨⟨⟨⟨⟨⟨⟨⟨⟨hc1, hc2⟩, hc3⟩, hc4⟩, hc5⟩, hc6⟩, hc7⟩, hc8⟩, hc9⟩, hc10⟩ := h
    repeat rw [Bool.and_eq_true]
    exact ⟨⟨⟨⟨⟨⟨⟨⟨⟨hc1, rfl⟩, rfl⟩, hc4⟩, hc5⟩, hc6⟩, hc7⟩, hc8⟩, hc9⟩, hc10⟩
  · have h1 : stripIn m = m := by
      rw [stripIn, if_neg hc]
    rw [h1]
    exact h

/-- The per-parameter modifier rewrite cannot introduce a permitted-flags
error. -/
theorem checkPermittedOk_after_process (tt : TypeTable) (cfg : ProgramConfig)
    (isMain : Bool) (t : Nat) (m allowed : Modifiers) (ci : Nat)
    (h : checkPermittedOk m allowed = true) :
    checkPermittedOk (processParamMods tt cfg isMain t m ci).1 allowed = true := by
  rw [processParamMods, inferRole_eq_branch]
  cases roleBranch tt cfg isMain t ci with
  | nothing => exact checkPermittedOk_stripIn m allowed h
  | coords =>
      rw [checkPermittedOk_update_lb]
      exact checkPermittedOk_stripIn m allowed h
  | color =>
      rw [checkPermittedOk_update_lb]
      exact checkPermittedOk_stripIn m allowed h

/-- check_parameters is idempotent on an error-free run: re-running it on
the stored, already-rewritten parameter list reports no errors and changes
nothing. -/
theorem check_parameters_idem (tt : TypeTable) (cfg : ProgramConfig) (isMain : Bool) :
    ∀ (ps : List Param) (ci : Nat) (ps2 : List Param),
      check_parameters tt cfg isMain ps ci = (0, ps2, true) →
      check_parameters tt cfg isMain ps2 ci = (0, ps2, true) := by
  intro ps
  induction ps with
  | nil =>
      intro ci ps2 h
      have h2 : ps2 = [] := by
        have := congrArg (fun r => r.2.1) h
        simpa using this.symm
      rw [h2]
      rfl
  | cons p rest ih =>
      intro ci ps2 h
      by_cases heff : ((tt.info p.typeId).isEffectChild && !cfg.isBuiltinCode) = true
      · exfalso
        have := congrArg (fun r => r.2.2) h
        simp only [check_parameters, if_pos heff] at this
        exact Bool.false_ne_true this
      · have hexp : check_parameters tt cfg isMain (p :: rest) ci =
            (checkPermittedErrs p.modifiers (paramAllowed tt p.typeId) +
              (check_parameters tt cfg isMain rest
                (processParamMods tt cfg isMain p.typeId p.modifiers ci).2).1,
             { p with modifiers :=
                (processParamMods tt cfg isMain p.typeId p.modifiers ci).1 } ::
              (check_parameters tt cfg isMain rest
                (processParamMods tt cfg isMain p.typeId p.modifiers ci).2).2.1,
             (check_parameters tt cfg isMain rest
                (processParamMods tt cfg isMain p.typeId p.modifiers ci).2).2.2) := by
          rw [check_parameters, if_neg heff]
        rw [hexp] at h
        have herr0 : checkPermittedErrs p.modifiers (paramAllowed tt p.typeId) = 0 := by
          have := congrArg (fun r => r.1) h
          simp only at this
          omega
        have hrest1 : (check_parameters tt cfg isMain rest
            (processParamMods tt cfg isMain p.typeId p.modifiers ci).2).1 = 0 := by
          have := congrArg (fun r => r.1) h
          simp only at this
          omega
        have hrest3 : (check_parameters tt cfg isMain rest
            (processParamMods tt cfg isMain p.typeId p.modifiers ci).2).2.2 = true := by
          have := congrArg (fun r => r.2.2) h
          simpa using this
        have hps2 : ps2 = { p with modifiers :=
            (processParamMods tt cfg isMain p.typeId p.modifiers ci).1 } ::
            (check_parameters tt cfg isMain rest
              (processParamMods tt cfg isMain p.typeId p.modifiers ci).2).2.1 := by
          have := congrArg (fun r => r.2.1) h
          simpa using this.symm
        have hrestfull : check_parameters tt cfg isMain rest
            (processParamMods tt cfg isMain p.typeId p.modifiers ci).2 =
            (0, (check_parameters tt cfg isMain rest
              (processParamMods tt cfg isMain p.typeId p.modifiers ci).2).2.1, true) := by
          rw [Prod.ext_iff]
          refine ⟨hrest1, ?_⟩
          rw [Prod.ext_iff]
          exact ⟨rfl, hrest3⟩
        have hih := ih (processParamMods tt cfg isMain p.typeId p.modifiers ci).2
          (check_parameters tt cfg isMain rest
            (processParamMods tt cfg isMain p.typeId p.modifiers ci).2).2.1 hrestfull
        rw [hps2]
        have hok : checkPermittedOk p.modifiers (paramAllowed tt p.typeId) = true := by
          rw [checkPermittedErrs] at herr0
          by_cases hb : checkPermittedOk p.modifiers (paramAllowed tt p.typeId) = true
          · exact hb
          · rw [if_neg hb] at herr0
            exact absurd herr0 (by simp)
        have herr0b : checkPermittedErrs
            (processParamMods tt cfg isMain p.typeId p.modifiers ci).1
            (paramAllowed tt p.typeId) = 0 := by
          rw [checkPermittedErrs, if_pos]
          exact checkPermittedOk_after_process tt cfg isMain p.typeId p.modifiers
            (paramAllowed tt p.typeId) ci hok
        have hexp2 : check_parameters tt cfg isMain
            ({ p with modifiers := (processParamMods tt cfg isMain p.typeId
                p.modifiers ci).1 } ::
              (check_parameters tt cfg isMain rest
                (processParamMods tt cfg isMain p.typeId p.modifiers ci).2).2.1) ci =
            (checkPermittedErrs (processParamMods tt cfg isMain p.typeId p.modifiers ci).1
                (paramAllowed tt p.typeId) +
              (check_parameters tt cfg isMain
                (check_parameters tt cfg isMain rest
                  (processParamMods tt cfg isMain p.typeId p.modifiers ci).2).2.1
                (processParamMods tt cfg isMain p.typeId
                  ((processParamMods tt cfg isMain p.typeId p.modifiers ci).1) ci).2).1,
             { p with modifiers := (processParamMods tt cfg isMain p.typeId
                ((processParamMods tt cfg isMain p.typeId p.modifiers ci).1) ci).1 } ::
              (check_parameters tt cfg isMain
                (check_parameters tt cfg isMain rest
                  (processParamMods tt cfg isMain p.typeId p.modifiers ci).2).2.1
                (processParamMods tt cfg isMain p.typeId
                  ((processParamMods tt cfg isMain p.typeId p.modifiers ci).1) ci).2).2.1,
             (check_parameters tt cfg isMain
                (check_parameters tt cfg isMain rest
                  (processParamMods tt cfg isMain p.typeId p.modifiers ci).2).2.1
                (processParamMods tt cfg isMain p.typeId
                  ((processParamMods tt cfg isMain p.typeId p.modifiers ci).1) ci).2).2.2) := by
          rw [check_parameters, if_neg heff]
        rw [hexp2, processParamMods_idem, herr0b, hih]
        simp

/-- Claim C8: validation is idempotent — for a declaration the Signature
Validator accepted with no reported errors, re-running check_modifiers,
check_return_type and check_parameters on the stored (normalized) result
reports no errors and returns exactly the same modifier flags and inferred
roles. -/
theorem validator_idempotent (tt : TypeTable) (cfg : ProgramConfig) (isMain : Bool)
    (m : Modifiers) (ret : Nat) (ps ps2 : List Param)
    (h1 : check_modifiers cfg m = (0, true))
    (h2 : check_return_type tt cfg ret = true)
    (h3 : check_parameters tt cfg isMain ps 0 = (0, ps2, true)) :
    check_modifiers cfg m = (0, true) ∧ check_return_type tt cfg ret = true ∧
      check_parameters tt cfg isMain ps2 0 = (0, ps2, true) :=
  ⟨h1, h2, check_parameters_idem tt cfg isMain ps 0 ps2 h3⟩

/-- Witness for C8: re-validating the stored result of
`half4 main(half4)` under the color-filter kind is a no-op. -/
theorem validator_idempotent_witness :
    check_modifiers ⟨false, false, ProgramKind.runtimeColorFilter⟩ noMods = (0, true) ∧
      check_return_type skTypes ⟨false, false, ProgramKind.runtimeColorFilter⟩ 8 = true ∧
      check_parameters skTypes ⟨false, false, ProgramKind.runtimeColorFilter⟩ true
        [⟨8, ⟨false, false, false, false, false, false, false, false, false, false,
          skInputColorBuiltin⟩⟩] 0 =
        (0, [⟨8, ⟨false, false, false, false, false, false, false, false, false, false,
          skInputColorBuiltin⟩⟩], true) :=
  validator_idempotent skTypes ⟨false, false, ProgramKind.runtimeColorFilter⟩ true
    noMods 8 [⟨8, noMods⟩]
    [⟨8, ⟨false, false, false, false, false, false, false, false, false, false,
      skInputColorBuiltin⟩⟩]
    (by decide) (by decide) (by decide)

/-- The mangling abbreviation of a sample-universe type, as a character
list. -/
def skAbbrev (t : Nat) : List Char := ((skTypes.info t).abbreviatedName).data

/-- The leading characters of the sample-universe abbreviations. -/
def kAbbrevHeads : List Char := ['v', 'f', 'h', 'i', 'b']

/-- The trailing (digit) characters of the sample-universe abbreviations. -/
def kAbbrevTails : List Char := ['2', '3', '4']

/-- A well-formed abbreviation codeword: a head letter followed by digit
characters only.  This shape makes concatenations uniquely decodable. -/
def goodWordB : List Char → Bool
  | [] => false
  | c :: ds => decide (c ∈ kAbbrevHeads) && ds.all (fun d => decide (d ∈ kAbbrevTails))

/-- Every concrete sample-universe abbreviation is a well-formed codeword. -/
theorem skAbbrev_good : ∀ t : Nat, t < 11 → goodWordB (skAbbrev t) = true := by decide

/-- Distinct concrete sample-universe types have distinct abbreviations. -/
theorem skAbbrev_inj : ∀ a : Nat, a < 11 → ∀ b : Nat, b < 11 →
    skAbbrev a = skAbbrev b → a = b := by decide

/-- A nonempty flattening of well-formed codewords starts with a head
letter. -/
theorem flatten_good_head (L : List (List Char)) (hL : ∀ w ∈ L, goodWordB w = true) :
    ∀ (c : Char) (rest : List Char), L.flatten = c :: rest →
      decide (c ∈ kAbbrevHeads) = true := by
  induction L with
  | nil => intro c rest h; simp at h
  | cons w t ih =>
      intro c rest h
      cases w with
      | nil =>
          have hw := hL [] (List.mem_cons_self _ _)
          simp [goodWordB] at hw
      | cons ch ds =>
          have hw := hL (ch :: ds) (List.mem_cons_self _ _)
          simp only [goodWordB, Bool.and_eq_true] at hw
          rw [List.flatten_cons, List.cons_append] at h
          have hc : ch = c := (List.cons.inj h).1
          rw [← hc]
          exact hw.1

/-- Splitting an append equation at the shorter left part. -/
theorem append_eq_split {α : Type} :
    ∀ (a b x y : List α), a ++ x = b ++ y → a.length ≤ b.length →
      b = a ++ b.drop a.length ∧ x = b.drop a.length ++ y := by
  intro a
  induction a with
  | nil =>
      intro b x y h _
      simp only [List.drop_zero, List.nil_append]
      exact ⟨rfl, h⟩
  | cons c a0 ih =>
      intro b x y h hlen
      cases b with
      | nil => simp at hlen
      | cons d b0 =>
          simp only [List.cons_append] at h
          have hcd : c = d := (List.cons.inj h).1
          have htail : a0 ++ x = b0 ++ y := (List.cons.inj h).2
          have hrec := ih b0 x y htail (by simpa using hlen)
          constructor
          · rw [List.length_cons, List.drop_succ_cons]
            rw [← hcd]
            rw [List.cons_append]
            rw [← hrec.1]
          · rw [List.length_cons, List.drop_succ_cons]
            exact hrec.2

/-- No character is both a head letter and a digit of the abbreviation
code. -/
theorem heads_tails_disjoint (c : Char) (h : decide (c ∈ kAbbrevTails) = true) :
    decide (c ∈ kAbbrevHeads) = false := by
  have hc := of_decide_eq_true h
  simp only [kAbbrevTails, List.mem_cons, List.not_mem_nil, or_false] at hc
  rcases hc with h1 | h1 | h1 <;> (subst h1; decide)

/-- If two codeword digit-tails head equal character streams and the second
stream continues with flattened codewords, the tails and remainders agree. -/
theorem digit_tail_split (d1s d2s J1 J2 : List Char) (t1 : List (List Char))
    (heq : d1s ++ J1 = d2s ++ J2) (hle : d1s.length ≤ d2s.length)
    (htails : ∀ x ∈ d2s, decide (x ∈ kAbbrevTails) = true)
    (ht1 : ∀ w ∈ t1, goodWordB w = true) (hJ1 : J1 = t1.flatten) :
    d1s = d2s ∧ J1 = J2 := by
  obtain ⟨hb, hx⟩ := append_eq_split d1s d2s J1 J2 heq hle
  cases hm : d2s.drop d1s.length with
  | nil =>
      rw [hm] at hb hx
      refine ⟨?_, ?_⟩
      · rw [hb, List.append_nil]
      · simpa using hx
  | cons x r =>
      exfalso
      rw [hm] at hb hx
      have hxmem : x ∈ d2s := by
        rw [hb]
        exact List.mem_append_right _ (List.mem_cons_self _ _)
      have hxtail := htails x hxmem
      have hxhead : decide (x ∈ kAbbrevHeads) = true := by
        apply flatten_good_head t1 ht1 x (r ++ J2)
        rw [← hJ1]
        simpa using hx
      rw [heads_tails_disjoint x hxtail] at hxhead
      exact Bool.false_ne_true hxhead

/-- Unique decodability: two lists of well-formed codewords with the same
flattening are equal. -/
theorem flatten_good_words_inj :
    ∀ (l1 l2 : List (List Char)),
      (∀ w ∈ l1, goodWordB w = true) → (∀ w ∈ l2, goodWordB w = true) →
      l1.flatten = l2.flatten → l1 = l2 := by
  intro l1
  induction l1 with
  | nil =>
      intro l2 _ h2 h
      cases l2 with
      | nil => rfl
      | cons w t =>
          exfalso
          cases w with
          | nil =>
              have hw := h2 [] (List.mem_cons_self _ _)
              simp [goodWordB] at hw
          | cons c ds => simp at h
  | cons w1 t1 ih =>
      intro l2 h1 h2 h
      cases l2 with
      | nil =>
          exfalso
          cases w1 with
          | nil =>
              have hw := h1 [] (List.mem_cons_self _ _)
              simp [goodWordB] at hw
          | cons c ds => simp at h
      | cons w2 t2 =>
          have ht1 : ∀ w ∈ t1, goodWordB w = true :=
            fun w hw => h1 w (List.mem_cons_of_mem _ hw)
          have ht2 : ∀ w ∈ t2, goodWordB w = true :=
            fun w hw => h2 w (List.mem_cons_of_mem _ hw)
          cases w1 with
          | nil =>
              exfalso
              have hw := h1 [] (List.mem_cons_self _ _)
              simp [goodWordB] at hw
          | cons c1 d1s =>
              cases w2 with
              | nil =>
                  exfalso
                  have hw := h2 [] (List.mem_cons_self _ _)
                  simp [goodWordB] at hw
              | cons c2 d2s =>
                  have hw1 := h1 (c1 :: d1s) (List.mem_cons_self _ _)
                  have hw2 := h2 (c2 :: d2s) (List.mem_cons_self _ _)
                  simp only [goodWordB, Bool.and_eq_true] at hw1 hw2
                  rw [List.flatten_cons, List.flatten_cons, List.cons_append,
                    List.cons_append] at h
                  have hc : c1 = c2 := (List.cons.inj h).1
                  have htl : d1s ++ t1.flatten = d2s ++ t2.flatten := (List.cons.inj h).2
                  have htails1 : ∀ x ∈ d1s, decide (x ∈ kAbbrevTails) = true := by
                    intro x hx
                    exact (List.all_eq_true.mp hw1.2) x hx
                  have htails2 : ∀ x ∈ d2s, decide (x ∈ kAbbrevTails) = true := by
                    intro x hx
                    exact (List.all_eq_true.mp hw2.2) x hx
                  rcases Nat.le_total d1s.length d2s.length with hle | hle
                  · obtain ⟨hd, hj⟩ := digit_tail_split d1s d2s t1.flatten t2.flatten t1
                      htl hle htails2 ht1 rfl
                    rw [hc, hd, ih t2 ht1 ht2 hj]
                  · obtain ⟨hd, hj⟩ := digit_tail_split d2s d1s t2.flatten t1.flatten t2
                      htl.symm hle htails1 ht2 rfl
                    rw [hc, hd.symm, ih t2 ht1 ht2 hj.symm]

/-- Mapping the (injective) abbreviation over valid type-id lists is
injective. -/
theorem map_skAbbrev_inj :
    ∀ (l1 l2 : List Nat), (∀ t ∈ l1, t < 11) → (∀ t ∈ l2, t < 11) →
      l1.map skAbbrev = l2.map skAbbrev → l1 = l2 := by
  intro l1
  induction l1 with
  | nil =>
      intro l2 _ _ h
      cases l2 with
      | nil => rfl
      | cons b t2 => simp at h
  | cons a t ih =>
      intro l2 h1 h2 h
      cases l2 with
      | nil => simp at h
      | cons b t2 =>
          simp only [List.map_cons] at h
          have hab := (List.cons.inj h).1
          have htl := (List.cons.inj h).2
          rw [skAbbrev_inj a (h1 a (List.mem_cons_self _ _)) b
            (h2 b (List.mem_cons_self _ _)) hab]
          rw [ih t2 (fun u hu => h1 u (List.mem_cons_of_mem _ hu))
            (fun u hu => h2 u (List.mem_cons_of_mem _ hu)) htl]

/-- Character data of the parameter-abbreviation fold of the mangler. -/
theorem mangled_foldl_data (tt : TypeTable) :
    ∀ (ps : List Param) (base : String),
      (ps.foldl (fun acc p => acc ++ (tt.info p.typeId).abbreviatedName) base).data =
        base.data ++
          (ps.map (fun p => ((tt.info p.typeId).abbreviatedName).data)).flatten := by
  intro ps
  induction ps with
  | nil => intro base; simp
  | cons p t ih =>
      intro base
      simp only [List.foldl_cons, List.map_cons, List.flatten_cons]
      rw [ih (base ++ (tt.info p.typeId).abbreviatedName)]
      rw [String.data_append]
      rw [List.append_assoc]

/-- The name-derived part of the mangled name: stripped name, splitter, and
builtin marker. -/
def namePre (d : FunctionDeclaration) : String :=
  let stripped := d.name.startsWith "$"
  let nm := if stripped then d.name.drop 1 else d.name
  let marker := if stripped then "Q" else ""
  let splitter := if nm.endsWith "_" then "x_" else "_"
  nm ++ splitter ++ marker

/-- The mangled-name character data on the non-literal path decomposes as
the name-derived part followed by the flattened return-and-parameter
abbreviations. -/
theorem mangledName_data (tt : TypeTable) (d : FunctionDeclaration)
    (h : ((d.builtin && !d.hasDefinition) || d.isMain) = false) :
    (mangledName tt d).data = (namePre d).data ++
      (((d.returnTypeId :: d.parameters.map Param.typeId).map
        (fun t => ((tt.info t).abbreviatedName).data)).flatten) := by
  rw [mangledName, if_neg (by simp [h])]
  rw [mangled_foldl_data]
  simp only [namePre, List.map_cons, List.flatten_cons, List.map_map]
  simp only [String.data_append, List.append_assoc]
  rfl

/-- namePre depends only on the name of the declaration. -/
theorem namePre_eq_of_name_eq (d1 d2 : FunctionDeclaration) (h : d1.name = d2.name) :
    namePre d1 = namePre d2 := by
  rw [namePre, namePre, h]

/-- Claim C6 (amended): mangling is a pure deterministic function of the
declaration; builtins without an attached body and main() keep their literal
name; and on the mangling path (all other declarations) two same-named
declarations over the concrete type universe that differ in their
parameter-type lists always mangle to different strings.  (The literal-name
path is excluded from the injectivity clause: two main() declarations with
different parameters both mangle to "main".) -/
theorem mangled_name_deterministic_injective :
    (∀ (tt : TypeTable) (d1 d2 : FunctionDeclaration), d1 = d2 →
      mangledName tt d1 = mangledName tt d2) ∧
    (∀ (tt : TypeTable) (d : FunctionDeclaration),
      ((d.builtin && !d.hasDefinition) || d.isMain) = true → mangledName tt d = d.name) ∧
    (∀ (d1 d2 : FunctionDeclaration),
      d1.name = d2.name →
      ((d1.builtin && !d1.hasDefinition) || d1.isMain) = false →
      ((d2.builtin && !d2.hasDefinition) || d2.isMain) = false →
      d1.returnTypeId < 11 → (∀ p ∈ d1.parameters, p.typeId < 11) →
      d2.returnTypeId < 11 → (∀ p ∈ d2.parameters, p.typeId < 11) →
      d1.parameters.map Param.typeId ≠ d2.parameters.map Param.typeId →
      mangledName skTypes d1 ≠ mangledName skTypes d2) := by
  refine ⟨fun tt d1 d2 h => by rw [h], fun tt d h => by rw [mangledName, if_pos h], ?_⟩
  intro d1 d2 hname hl1 hl2 hr1 hp1 hr2 hp2 hdiff heq
  have hdata := congrArg String.data heq
  rw [mangledName_data skTypes d1 hl1, mangledName_data skTypes d2 hl2] at hdata
  rw [namePre_eq_of_name_eq d1 d2 hname] at hdata
  have hflat := List.append_cancel_left hdata
  have hgood1 : ∀ w ∈ (d1.returnTypeId :: d1.parameters.map Param.typeId).map
      (fun t => ((skTypes.info t).abbreviatedName).data), goodWordB w = true := by
    intro w hw
    obtain ⟨t, ht, rfl⟩ := List.mem_map.mp hw
    rcases List.mem_cons.mp ht with h0 | h0
    · subst h0
      exact skAbbrev_good _ hr1
    · obtain ⟨p, hp, rfl⟩ := List.mem_map.mp h0
      exact skAbbrev_good _ (hp1 p hp)
  have hgood2 : ∀ w ∈ (d2.returnTypeId :: d2.parameters.map Param.typeId).map
      (fun t => ((skTypes.info t).abbreviatedName).data), goodWordB w = true := by
    intro w hw
    obtain ⟨t, ht, rfl⟩ := List.mem_map.mp hw
    rcases List.mem_cons.mp ht with h0 | h0
    · subst h0
      exact skAbbrev_good _ hr2
    · obtain ⟨p, hp, rfl⟩ := List.mem_map.mp h0
      exact skAbbrev_good _ (hp2 p hp)
  have hwords := flatten_good_words_inj _ _ hgood1 hgood2 hflat
  have hvalid1 : ∀ t ∈ d1.returnTypeId :: d1.parameters.map Param.typeId, t < 11 := by
    intro t ht
    rcases List.mem_cons.mp ht with h0 | h0
    · subst h0
      exact hr1
    · obtain ⟨p, hp, rfl⟩ := List.mem_map.mp h0
      exact hp1 p hp
  have hvalid2 : ∀ t ∈ d2.returnTypeId :: d2.parameters.map Param.typeId, t < 11 := by
    intro t ht
    rcases List.mem_cons.mp ht with h0 | h0
    · subst h0
      exact hr2
    · obtain ⟨p, hp, rfl⟩ := List.mem_map.mp h0
      exact hp2 p hp
  have hids := map_skAbbrev_inj _ _ hvalid1 hvalid2 hwords
  exact hdiff (List.cons.inj hids).2

/-- Counterexample for C6 as frozen: two main() declarations that differ in
a parameter type (float2 versus half4 in the first slot) nevertheless mangle
to the same string, because the entry point keeps its literal name. -/
theorem mangled_name_injectivity_counterexample :
    mangledName skTypes ⟨"main", [⟨2, noMods⟩, ⟨8, noMods⟩], 8, noMods, false, false⟩ =
      mangledName skTypes ⟨"main", [⟨8, noMods⟩, ⟨8, noMods⟩], 8, noMods, false, false⟩ ∧
    (FunctionDeclaration.parameters
        ⟨"main", [⟨2, noMods⟩, ⟨8, noMods⟩], 8, noMods, false, false⟩).map Param.typeId ≠
      (FunctionDeclaration.parameters
        ⟨"main", [⟨8, noMods⟩, ⟨8, noMods⟩], 8, noMods, false, false⟩).map Param.typeId := by
  constructor
  · rfl
  · decide

/-- Witness for C6 (amended): `float foo(float2)` and `float foo(float3)`
mangle differently. -/
theorem mangled_name_deterministic_injective_witness :
    mangledName skTypes ⟨"foo", [⟨2, noMods⟩], 1, noMods, false, false⟩ ≠
      mangledName skTypes ⟨"foo", [⟨3, noMods⟩], 1, noMods, false, false⟩ :=
  mangled_name_deterministic_injective.2.2
    ⟨"foo", [⟨2, noMods⟩], 1, noMods, false, false⟩
    ⟨"foo", [⟨3, noMods⟩], 1, noMods, false, false⟩
    rfl (by decide) (by decide) (by decide) (by decide) (by decide) (by decide) (by decide)

end SkSLSpec
